import Mathlib

/-!
Verification of the MMATS Market Replay & Order Simulation Engine.

A shallow embedding of the repository's core:
- `src/domain/models/{enums,order,position,market_data,strategy_context}.py`
- `src/infrastructure/adapters/execution/simulated_adapter.py`
- `src/application/backtest_engine.py`

Python `Decimal` values are modelled as exact rationals (`ℚ`); the
28-significant-digit context rounding of `decimal` is not modelled.
Wall-clock time (`datetime.utcnow()`) is modelled as a natural-number
counter threaded through the ledger state: each fill consumes one tick,
and a run is parameterised by the starting tick `t0`.  Random UUIDs
(`uuid4()`), which never influence balances, positions, fills, equity or
the trade log, are modelled as constants (order ids are caller-chosen
naturals).  Operations that can raise in Python return `Except String`.
-/

namespace MMATS

/-! ## Enumerations (src/domain/models/enums.py) -/
inductive MarketType
  | crypto | forex | stock
deriving DecidableEq, Repr, Inhabited

inductive OrderSide
  | buy | sell
deriving DecidableEq, Repr, Inhabited

inductive OrderType
  | market | limit | stop_loss | take_profit
deriving DecidableEq, Repr, Inhabited

inductive OrderStatus
  | pending | submitted | filled | partially_filled | cancelled | rejected | expired
deriving DecidableEq, Repr, Inhabited

inductive SignalAction
  | buy | sell | hold | close
deriving DecidableEq, Repr, Inhabited

inductive PositionSide
  | long | short
deriving DecidableEq, Repr, Inhabited

/-! ## Order model (src/domain/models/order.py) -/
structure Order where
  order_id : ℕ := 0
  strategy_id : String
  signal_id : Option String := none
  timestamp : ℕ := 0
  submitted_at : Option ℕ := none
  filled_at : Option ℕ := none
  symbol : String
  market_type : MarketType := .crypto
  side : OrderSide
  order_type : OrderType := .market
  quantity : ℚ
  price : Option ℚ := none
  stop_price : Option ℚ := none
  stop_loss : Option ℚ := none
  take_profit : Option ℚ := none
  status : OrderStatus := .pending
  filled_quantity : ℚ := 0
  filled_price : Option ℚ := none
  commission : ℚ := 0
  broker_order_id : Option String := none
  error_message : Option String := none
deriving DecidableEq, Repr, Inhabited

def Order.is_filled (o : Order) : Bool :=
  match o.status with
  | .filled => true
  | _ => false

def Order.is_active (o : Order) : Bool :=
  match o.status with
  | .submitted | .partially_filled => true
  | _ => false

def Order.is_closed (o : Order) : Bool :=
  match o.status with
  | .filled | .cancelled | .rejected | .expired => true
  | _ => false

def Order.mark_submitted (o : Order) (broker : String) (now : ℕ) : Order :=
  { o with status := .submitted, broker_order_id := some broker, submitted_at := some now }

def Order.mark_filled (o : Order) (fq fp comm : ℚ) (now : ℕ) : Order :=
  { o with
    filled_quantity := fq
    filled_price := some fp
    commission := comm
    filled_at := some now
    status := if fq ≥ o.quantity then .filled else .partially_filled }

def Order.mark_cancelled (o : Order) : Order :=
  { o with status := .cancelled }

def Order.mark_rejected (o : Order) (reason : String) : Order :=
  { o with status := .rejected, error_message := some reason }

/-! ## Position model (src/domain/models/position.py) -/
structure Position where
  position_id : ℕ := 0
  strategy_id : String
  symbol : String
  market_type : MarketType := .crypto
  side : PositionSide
  entry_price : ℚ
  quantity : ℚ
  current_price : ℚ
  stop_loss : Option ℚ := none
  take_profit : Option ℚ := none
  opened_at : ℕ := 0
  closed_at : Option ℕ := none
  entry_commission : ℚ := 0
  exit_commission : ℚ := 0
  exit_price : Option ℚ := none
  exit_reason : Option String := none
deriving DecidableEq, Repr, Inhabited

def Position.unrealized_pnl (p : Position) : ℚ :=
  match p.side with
  | .long => (p.current_price - p.entry_price) * p.quantity
  | .short => (p.entry_price - p.current_price) * p.quantity

def Position.update_price (p : Position) (price : ℚ) : Position :=
  { p with current_price := price }

def Position.close (p : Position) (xp xc : ℚ) (reason : String) (now : ℕ) : Position :=
  { p with
    exit_price := some xp
    exit_commission := xc
    exit_reason := some reason
    closed_at := some now
    current_price := xp }

/-! ## Association lists, modelling Python dicts (insertion order preserved) -/
def alist_lookup {κ α : Type} [DecidableEq κ] : List (κ × α) → κ → Option α
  | [], _ => none
  | (k, v) :: rest, key => if k = key then some v else alist_lookup rest key

def alist_insert {κ α : Type} [DecidableEq κ] : List (κ × α) → κ → α → List (κ × α)
  | [], key, v => [(key, v)]
  | (k, w) :: rest, key, v =>
      if k = key then (key, v) :: rest else (k, w) :: alist_insert rest key v

def alist_erase {κ α : Type} [DecidableEq κ] : List (κ × α) → κ → List (κ × α)
  | [], _ => []
  | (k, w) :: rest, key => if k = key then rest else (k, w) :: alist_erase rest key

/-! ## Simulated execution adapter
(src/infrastructure/adapters/execution/simulated_adapter.py) -/
structure LedgerState where
  initial_balance : ℚ
  currency : String := "USDT"
  commission_rate : ℚ
  slippage_rate : ℚ
  connected : Bool := false
  balance : ℚ
  orders : List (ℕ × Order) := []
  positions : List (String × Position) := []
  trade_history : List Order := []
  current_prices : List (String × ℚ) := []
  now : ℕ := 0
deriving DecidableEq, Repr, Inhabited

/-- Construct the adapter as `SimulatedExecutionAdapter.__init__` does, at
wall-clock tick `t0`. -/
def init_adapter (initial commission slippage : ℚ) (t0 : ℕ) : LedgerState :=
  { initial_balance := initial
    commission_rate := commission
    slippage_rate := slippage
    balance := initial
    now := t0 }

def connect (s : LedgerState) : LedgerState := { s with connected := true }

def disconnect (s : LedgerState) : LedgerState := { s with connected := false }

/-- Model of `set_current_price`: record the mark price and update the P&L of
an open position for the symbol.  Pending orders are not touched.  (The
Python assigns the price first and then inspects `self._positions`, which the
price assignment does not alter, so a single `match` is equivalent.) -/
def set_current_price (sym : String) (price : ℚ) (s : LedgerState) : LedgerState :=
  match alist_lookup s.positions sym with
  | some pos =>
      { s with
        current_prices := alist_insert s.current_prices sym price
        positions := alist_insert s.positions sym (pos.update_price price) }
  | none => { s with current_prices := alist_insert s.current_prices sym price }

def get_current_price (sym : String) (s : LedgerState) : Option ℚ :=
  alist_lookup s.current_prices sym

/-- Model of `_close_position_internal`.  Faithful to the source: it credits
`fill_price * quantity + pnl` to the balance (the closed `Position` object is
deleted from the map and not referenced afterwards, so its `close` mutation is
unobservable and elided). -/
def close_position_internal (sym : String) (_order : Order) (fill_price : ℚ)
    (s : LedgerState) : LedgerState :=
  match alist_lookup s.positions sym with
  | none => s
  | some pos =>
      let pnl : ℚ :=
        match pos.side with
        | .long => (fill_price - pos.entry_price) * pos.quantity
        | .short => (pos.entry_price - fill_price) * pos.quantity
      { s with
        balance := s.balance + (fill_price * pos.quantity + pnl)
        positions := alist_erase s.positions sym }

/-- Model of `_update_position`. -/
def update_position (order : Order) (fill_price : ℚ) (s : LedgerState) : LedgerState :=
  let sym := order.symbol
  match order.side with
  | .buy =>
      match alist_lookup s.positions sym with
      | some pos =>
          match pos.side with
          | .long =>
              let total_qty := pos.quantity + order.quantity
              let avg_price :=
                (pos.entry_price * pos.quantity + fill_price * order.quantity) / total_qty
              { s with positions := (alist_insert s.positions sym
                  { pos with
                    entry_price := avg_price
                    quantity := total_qty
                    current_price := fill_price }) }
          | .short => close_position_internal sym order fill_price s
      | none =>
          let pos : Position :=
            { strategy_id := order.strategy_id
              symbol := sym
              market_type := order.market_type
              side := .long
              entry_price := fill_price
              quantity := order.quantity
              current_price := fill_price
              stop_loss := order.stop_loss
              take_profit := order.take_profit
              opened_at := s.now }
          { s with positions := alist_insert s.positions sym pos }
  | .sell =>
      match alist_lookup s.positions sym with
      | some pos =>
          match pos.side with
          | .long => close_position_internal sym order fill_price s
          | .short => s
      | none => s

def insufficient_balance_msg (balance total : ℚ) : String :=
  "Insufficient balance: " ++ toString balance ++ " < " ++ toString total

/-- Fill price with slippage: `current * (1 + slippage)` for BUY,
`current * (1 - slippage)` for SELL. -/
def fill_price_for (side : OrderSide) (current_price slippage_rate : ℚ) : ℚ :=
  match side with
  | .buy => current_price * (1 + slippage_rate)
  | .sell => current_price * (1 - slippage_rate)

/-- The limit-hold test of `place_order`, mirroring the Python truthiness of
`if order.order_type == OrderType.LIMIT and order.price` (price present and
nonzero) followed by the two price comparisons. -/
def limit_hold (o : Order) (fill_price : ℚ) : Prop :=
  o.order_type = OrderType.limit ∧ o.price.getD 0 ≠ 0 ∧
    ((o.side = OrderSide.buy ∧ fill_price > o.price.getD 0) ∨
     (o.side = OrderSide.sell ∧ fill_price < o.price.getD 0))

instance (o : Order) (fp : ℚ) : Decidable (limit_hold o fp) := by
  unfold limit_hold; infer_instance

/-- The balance check of `place_order`: a BUY whose
`order_value + commission` exceeds the balance. -/
def insufficient_balance (o : Order) (fill_price : ℚ) (s : LedgerState) : Prop :=
  o.side = OrderSide.buy ∧
    o.quantity * fill_price + o.quantity * fill_price * s.commission_rate > s.balance

instance (o : Order) (fp : ℚ) (s : LedgerState) :
    Decidable (insufficient_balance o fp s) := by
  unfold insufficient_balance; infer_instance

/-- The balance debit of `place_order` for BUY orders
(`self._balance -= total_cost`); other sides leave the balance alone. -/
def debit_buy (order : Order) (fill_price : ℚ) (s : LedgerState) : LedgerState :=
  if order.side = OrderSide.buy then
    { s with balance := s.balance -
        (order.quantity * fill_price +
         order.quantity * fill_price * s.commission_rate) }
  else s

/-- Storing a filled order: `self._orders[order.order_id] = order` and
`self._trade_history.append(order)`, consuming one wall-clock tick. -/
def store_fill (o1 : Order) (s2 : LedgerState) : LedgerState :=
  { s2 with
    orders := alist_insert s2.orders o1.order_id o1
    trade_history := s2.trade_history ++ [o1]
    now := s2.now + 1 }

/-- The fill tail of `place_order`: debit a BUY, mark the order
submitted+filled, update the position, store the order and append it to the
trade history. -/
def fill_market_order (order : Order) (fill_price : ℚ) (s : LedgerState) :
    Order × LedgerState :=
  let s1 := debit_buy order fill_price s
  let o1 := (order.mark_submitted "SIM_" s1.now).mark_filled
              order.quantity fill_price
              (order.quantity * fill_price * s.commission_rate) s1.now
  (o1, store_fill o1 (update_position o1 fill_price s1))

/-- Model of `place_order`.  The `uuid4`-derived broker id is modelled as the
constant `"SIM_"` (it influences nothing observable). -/
def place_order (order : Order) (s : LedgerState) : Except String (Order × LedgerState) :=
  if s.connected = false then .error "Not connected" else
  match alist_lookup s.current_prices order.symbol with
  | none => .ok (order.mark_rejected "No price data for symbol", s)
  | some current_price =>
      let fill_price := fill_price_for order.side current_price s.slippage_rate
      if limit_hold order fill_price then
        let order2 := { order with status := OrderStatus.submitted,
                                   broker_order_id := some "SIM_" }
        .ok (order2, { s with orders := alist_insert s.orders order.order_id order2 })
      else
        if insufficient_balance order fill_price s then
          .ok (order.mark_rejected
                (insufficient_balance_msg s.balance
                  (order.quantity * fill_price +
                   order.quantity * fill_price * s.commission_rate)), s)
        else
          .ok (fill_market_order order fill_price s)

def get_positions (sym : Option String) (s : LedgerState) : List Position :=
  let ps := s.positions.map Prod.snd
  match sym with
  | none => ps
  | some sy => ps.filter (fun p => p.symbol == sy)

/-- Model of `close_position`.  `quantity or pos.quantity` in Python treats
both `None` and `0` as absent. -/
def close_position (sym : String) (quantity : Option ℚ) (s : LedgerState) :
    Except String (Order × LedgerState) :=
  match alist_lookup s.positions sym with
  | none => .error ("No position for symbol: " ++ sym)
  | some pos =>
      let close_qty :=
        match quantity with
        | none => pos.quantity
        | some q => if q = 0 then pos.quantity else q
      let order : Order :=
        { strategy_id := pos.strategy_id
          symbol := sym
          market_type := pos.market_type
          side := match pos.side with | .long => OrderSide.sell | .short => OrderSide.buy
          order_type := OrderType.market
          quantity := close_qty
          timestamp := s.now }
      place_order order s

def get_available_balance (currency : String) (s : LedgerState) : ℚ :=
  if currency = s.currency then s.balance else 0

structure Balance where
  currency : String
  total : ℚ
  available : ℚ
  locked : ℚ
deriving DecidableEq, Repr, Inhabited

def sum_unrealized (s : LedgerState) : ℚ :=
  (s.positions.map (fun kv => kv.2.unrealized_pnl)).sum

/-- Model of `get_account_balance` (the Python method returns a one-element
list; we return the element). -/
def get_account_balance (s : LedgerState) : Balance :=
  { currency := s.currency
    total := s.balance + sum_unrealized s
    available := s.balance
    locked := 0 }

/-! ## Market data and strategy-facing models
(src/domain/models/market_data.py, strategy_context.py) -/
/-- OHLCV candle (`open` is a reserved word in Lean, hence `open_price`). -/
structure Candle where
  symbol : String := ""
  timestamp : ℕ
  open_price : ℚ
  high : ℚ
  low : ℚ
  close : ℚ
  volume : ℚ := 0
deriving DecidableEq, Repr, Inhabited

structure IndicatorConfig where
  name : String
  indicator_type : String
  params : List (String × ℕ) := []
deriving DecidableEq, Repr, Inhabited

def IndicatorConfig.param_get (c : IndicatorConfig) (key : String) (dflt : ℕ) : ℕ :=
  (alist_lookup c.params key).getD dflt

structure AccountState where
  balance : ℚ
  equity : ℚ
  margin_used : ℚ := 0
  margin_available : ℚ := 0
  currency : String := "USDT"
deriving DecidableEq, Repr, Inhabited

structure StrategyContext where
  symbol : String
  market_type : MarketType
  timeframe : String
  timestamp : ℕ
  environment : String := "backtest"
  candles : List Candle := []
  current_price : ℚ
  indicators : List (String × Option ℚ) := []
  account : AccountState
  positions : List Position := []
  all_positions : List Position := []
deriving DecidableEq, Repr, Inhabited

/-- Modelled from the spec: `src/domain/models/signal.py` is imported by the
source (`src/domain/models/__init__.py`, `src/domain/ports/strategy.py`) but
the file itself is missing from the repository snapshot.  Spec §3: a Signal
carries an action in BUY/SELL/HOLD/CLOSE, an optional position-size fraction
of capital, optional entry/stop-loss/take-profit prices and a confidence in
[0,1]; "actionable" means action ∈ BUY/SELL/CLOSE. -/
structure Signal where
  strategy_id : String := ""
  symbol : String := ""
  market_type : MarketType := .crypto
  action : SignalAction
  position_size : ℚ := 0
  entry_price : Option ℚ := none
  stop_loss : Option ℚ := none
  take_profit : Option ℚ := none
  confidence : ℚ := 0
deriving DecidableEq, Repr, Inhabited

def Signal.is_actionable (sig : Signal) : Bool :=
  match sig.action with
  | .buy | .sell | .close => true
  | .hold => false

/-- Model of the `IStrategy` contract (src/domain/ports/strategy.py), as the
engine consumes it: declared warm-up, declared indicators, and the decision
function.  `σ` is the strategy's internal mutable state; `on_bar` returns the
updated state with the signal. -/
structure Strategy (σ : Type) where
  name : String := "strategy"
  required_candles : ℕ
  required_indicators : List IndicatorConfig := []
  init_state : σ
  on_bar : σ → StrategyContext → σ × Signal

/-! ## Indicator pipeline (BacktestEngine / IndicatorCalculator,
src/application/backtest_engine.py) -/
/-- Model of `IndicatorCalculator.sma`.  `prices[-period:]` is modelled as
`drop (length - period)`; the two agree for `period ≥ 1` (for `period = 0`
Python takes the whole list and the division raises, a case never exercised
here). -/
def sma (prices : List ℚ) (period : ℕ) : Option ℚ :=
  if prices.length < period then none
  else some ((prices.drop (prices.length - period)).sum / (period : ℚ))

/-- Model of `IndicatorCalculator.ema` (for `period ≥ 1`; an empty price list
with `period = 0` would raise `IndexError` in Python). -/
def ema (prices : List ℚ) (period : ℕ) : Option ℚ :=
  if prices.length < period then none
  else
    match prices with
    | [] => none
    | p :: rest =>
        let m : ℚ := 2 / ((period : ℚ) + 1)
        some (rest.foldl (fun e price => price * m + e * (1 - m)) p)

/-- Model of `IndicatorCalculator.rsi`.  The Python routes gains/losses
through `float` and rounds the result to two decimals; the arithmetic is
modelled exactly over `ℚ` (no claim depends on rsi values). -/
def rsi (prices : List ℚ) (period : ℕ) : Option ℚ :=
  if prices.length < period + 1 then none
  else
    let changes := (prices.zip prices.tail).map (fun pq => pq.2 - pq.1)
    let gains := changes.map (fun c => if c > 0 then c else 0)
    let losses := changes.map (fun c => if c > 0 then 0 else |c|)
    let avg_gain := (gains.drop (gains.length - period)).sum / (period : ℚ)
    let avg_loss := (losses.drop (losses.length - period)).sum / (period : ℚ)
    if avg_loss = 0 then some 100
    else some (100 - 100 / (1 + avg_gain / avg_loss))

/-- Model of `BacktestEngine._calculate_indicators`: a dict built in
declaration order; unknown indicator types add nothing. -/
def calculate_indicators {σ : Type} (strat : Strategy σ) (closes : List ℚ) :
    List (String × Option ℚ) :=
  strat.required_indicators.foldl
    (fun acc c =>
      if c.indicator_type.toUpper = "SMA" then
        acc ++ [(c.name, sma closes (c.param_get "period" 20))]
      else if c.indicator_type.toUpper = "EMA" then
        acc ++ [(c.name, ema closes (c.param_get "period" 20))]
      else if c.indicator_type.toUpper = "RSI" then
        acc ++ [(c.name, rsi closes (c.param_get "period" 14))]
      else acc) []

/-! ## Backtest engine (src/application/backtest_engine.py) -/
structure BacktestConfig where
  symbol : String
  timeframe : String
  start_date : ℕ := 0
  end_date : ℕ := 0
  initial_capital : ℚ := 10000
  commission_rate : ℚ := 0.001
  slippage_rate : ℚ := 0.0005
  market_type : MarketType := .crypto
deriving DecidableEq, Repr, Inhabited

structure EquityPoint where
  timestamp : ℕ
  equity : ℚ
  price : ℚ
deriving DecidableEq, Repr, Inhabited

/-- One entry of the result's trade log.  `timestamp` models
`order.filled_at.isoformat() if order.filled_at else ""` (the formatting is
injective, so `Option ℕ` preserves byte-identity comparisons);
`price` models `float(filled_price) if filled_price else 0` (a zero price maps
to `0` on both branches). -/
structure TradeEntry where
  timestamp : Option ℕ
  symbol : String
  side : OrderSide
  quantity : ℚ
  price : ℚ
  commission : ℚ
deriving DecidableEq, Repr, Inhabited

structure BacktestResult where
  strategy_name : String
  symbol : String
  timeframe : String
  start_date : ℕ
  end_date : ℕ
  initial_capital : ℚ
  final_capital : ℚ
  total_return : ℚ
  total_return_pct : ℚ
  total_trades : ℕ
  winning_trades : ℕ
  losing_trades : ℤ
  win_rate : ℚ
  max_drawdown : ℚ
  max_drawdown_pct : ℚ
  equity_curve : List EquityPoint
  trades : List TradeEntry
  signals : List Signal
deriving DecidableEq, Repr, Inhabited

/-- Model of the `StrategyContext` construction in `BacktestEngine.run`
(the snapshot handed to the strategy each step): the account state is built
with `equity=balance`, and the candle window is `historical[-100:]`. -/
def mk_context (cfg : BacktestConfig) (candle : Candle) (historical : List Candle)
    (indicators : List (String × Option ℚ)) (balance : ℚ)
    (positions all_positions : List Position) : StrategyContext :=
  { symbol := cfg.symbol
    market_type := cfg.market_type
    timeframe := cfg.timeframe
    timestamp := candle.timestamp
    environment := "backtest"
    candles := historical.drop (historical.length - 100)
    current_price := candle.close
    indicators := indicators
    account := { balance := balance, equity := balance, currency := "USDT" }
    positions := positions
    all_positions := all_positions }

/-- Model of `BacktestEngine._calculate_equity`. -/
def calculate_equity (s : LedgerState) : ℚ := (get_account_balance s).total

/-- Sequentially close positions (the `for pos in positions:
await execution.close_position(pos.symbol)` pattern of the engine);
an exception aborts the iteration as in Python. -/
def close_positions_list : List Position → LedgerState → Except String LedgerState
  | [], s => .ok s
  | pos :: rest, s =>
      (close_position pos.symbol none s).bind fun p => close_positions_list rest p.2

/-- Model of the CLOSE/SELL arm of `_execute_signal`: close every open
position for the symbol. -/
def close_symbol_positions (sym : String) (s : LedgerState) :
    Except String LedgerState :=
  close_positions_list (get_positions (some sym) s) s

/-- Model of `BacktestEngine._execute_signal`. -/
def execute_signal (sig : Signal) (_cfg : BacktestConfig) (s : LedgerState) :
    Except String LedgerState :=
  match sig.action with
  | .buy =>
      let balance := get_available_balance "USDT" s
      let size_value := balance * sig.position_size
      match get_current_price sig.symbol s with
      | some cp =>
          if cp > 0 then
            let quantity := size_value / cp
            let order : Order :=
              { strategy_id := sig.strategy_id
                symbol := sig.symbol
                market_type := sig.market_type
                side := .buy
                order_type := .market
                quantity := quantity
                stop_loss := sig.stop_loss
                take_profit := sig.take_profit
                timestamp := s.now }
            (place_order order s).map Prod.snd
          else .ok s
      | none => .ok s
  | .close => close_symbol_positions sig.symbol s
  | .sell => close_symbol_positions sig.symbol s
  | .hold => .ok s

/-- Engine-side loop state: the ledger, the strategy's internal state, and
the tracking variables of `BacktestEngine.run`. -/
structure EngineState (σ : Type) where
  led : LedgerState
  strat_state : σ
  signals : List Signal := []
  equity_curve : List EquityPoint := []
  peak_equity : ℚ
  max_drawdown : ℚ := 0

/-- One iteration of the candle loop in `BacktestEngine.run` (steps a-g of
the replay cycle), at candle index `ic.1` with candle `ic.2`. -/
def run_step {σ : Type} (strat : Strategy σ) (cfg : BacktestConfig)
    (candles : List Candle) (es : EngineState σ) (ic : ℕ × Candle) :
    Except String (EngineState σ) :=
  let i := ic.1
  let candle := ic.2
  let historical := candles.take (i + 1)
  let led1 := set_current_price cfg.symbol candle.close es.led
  let closes := historical.map Candle.close
  let indicators := calculate_indicators strat closes
  let positions := get_positions (some cfg.symbol) led1
  let all_positions := get_positions none led1
  let balance := get_available_balance "USDT" led1
  let ctx := mk_context cfg candle historical indicators balance positions all_positions
  let step := strat.on_bar es.strat_state ctx
  let signal := step.2
  (if signal.is_actionable then execute_signal signal cfg led1 else .ok led1).map
    fun led2 =>
      let current_equity := calculate_equity led2
      let peak := if current_equity > es.peak_equity then current_equity else es.peak_equity
      let drawdown := peak - current_equity
      let maxdd := if drawdown > es.max_drawdown then drawdown else es.max_drawdown
      { led := led2
        strat_state := step.1
        signals := es.signals ++ [signal]
        equity_curve := es.equity_curve ++
          [{ timestamp := candle.timestamp, equity := current_equity, price := candle.close }]
        peak_equity := peak
        max_drawdown := maxdd }

def run_loop {σ : Type} (strat : Strategy σ) (cfg : BacktestConfig)
    (candles : List Candle) : List (ℕ × Candle) → EngineState σ →
    Except String (EngineState σ)
  | [], es => .ok es
  | ic :: rest, es =>
      (run_step strat cfg candles es ic).bind (run_loop strat cfg candles rest)

/-- The engine's state entering the loop: a fresh connected adapter with the
configured capital and rates, peak equity seeded at the initial capital and
max drawdown at zero. -/
def init_engine_state {σ : Type} (strat : Strategy σ) (cfg : BacktestConfig)
    (t0 : ℕ) : EngineState σ :=
  { led := connect (init_adapter cfg.initial_capital cfg.commission_rate cfg.slippage_rate t0)
    strat_state := strat.init_state
    peak_equity := cfg.initial_capital }

/-- Model of the post-loop liquidation: close every position still open. -/
def close_remaining (s : LedgerState) : Except String LedgerState :=
  close_positions_list (get_positions none s) s

def mk_trade_entry (o : Order) : TradeEntry :=
  { timestamp := o.filled_at
    symbol := o.symbol
    side := o.side
    quantity := o.quantity
    price := o.filled_price.getD 0
    commission := o.commission }

/-- Model of `BacktestEngine.run`, parameterised by the wall-clock start tick
`t0`.  The simulated market-data adapter (`load_candles`) is write-only in a
backtest and elided; `get_statistics` is called and discarded in the source
and elided.  The one unguarded division in the source is
`total_return_pct = (final - initial)/initial * 100`, which raises
`DivisionByZero` when `initial_capital` is zero — modelled as the explicit
error branch. -/
def run {σ : Type} (strat : Strategy σ) (cfg : BacktestConfig)
    (candles : List Candle) (t0 : ℕ) : Except String BacktestResult :=
  let warmup := strat.required_candles
  (run_loop strat cfg candles (candles.enum.drop warmup)
      (init_engine_state strat cfg t0)).bind fun es =>
  (close_remaining es.led).bind fun led =>
  let final_equity := calculate_equity led
  let trades := (led.trade_history.filter Order.is_filled).map mk_trade_entry
  let winning := (trades.filter (fun t => t.side == OrderSide.sell)).length
  let total_trades := trades.length / 2
  if cfg.initial_capital = 0 then .error "decimal.DivisionByZero: total_return_pct"
  else
    .ok { strategy_name := strat.name
          symbol := cfg.symbol
          timeframe := cfg.timeframe
          start_date := cfg.start_date
          end_date := cfg.end_date
          initial_capital := cfg.initial_capital
          final_capital := final_equity
          total_return := final_equity - cfg.initial_capital
          total_return_pct := (final_equity - cfg.initial_capital) / cfg.initial_capital * 100
          total_trades := total_trades
          winning_trades := winning
          losing_trades := (total_trades : ℤ) - (winning : ℤ)
          win_rate := if total_trades > 0 then (winning : ℚ) / (total_trades : ℚ) * 100 else 0
          max_drawdown := es.max_drawdown
          max_drawdown_pct :=
            if es.peak_equity > 0 then es.max_drawdown / es.peak_equity * 100 else 0
          equity_curve := es.equity_curve
          trades := trades
          signals := es.signals }

/-- Spec-side abbreviation: the cash a BUY at mark price `p` must cover,
`notional + commission`, with the fill price adjusted for slippage as the
ledger computes it. -/
def buy_total_cost (o : Order) (p : ℚ) (s : LedgerState) : ℚ :=
  o.quantity * (p * (1 + s.slippage_rate)) +
    o.quantity * (p * (1 + s.slippage_rate)) * s.commission_rate

/-! ## Claim C1 -/
def c1_start : LedgerState := connect (init_adapter 10000 0 0 0)

def c1_buy_order : Order :=
  { order_id := 1, strategy_id := "s1", symbol := "BTC/USDT", side := .buy,
    quantity := 0.1 }

def c1_final : Except String LedgerState :=
  (place_order c1_buy_order (set_current_price "BTC/USDT" 40000 c1_start)).bind fun p =>
    (close_position "BTC/USDT" none (set_current_price "BTC/USDT" 42000 p.2)).map fun q => q.2

def c2_state : LedgerState :=
  set_current_price "BTC/USDT" 40000 (connect (init_adapter 10000 0.001 0.0005 0))

def c2_order : Order :=
  { order_id := 2, strategy_id := "s2", symbol := "BTC/USDT", side := .buy,
    quantity := 1 }

def c6_state : LedgerState :=
  set_current_price "BTC/USDT" 40000 (connect (init_adapter 10000 0.001 0.0005 0))

def c6_order : Order :=
  { order_id := 3, strategy_id := "s6", symbol := "BTC/USDT", side := .buy,
    quantity := 1 }

/-! ## Claim C3 -/
def c3_state : LedgerState :=
  set_current_price "BTC/USDT" 40000 (connect (init_adapter 10000 0.001 0 0))

def c3_limit_order : Order :=
  { order_id := 7, strategy_id := "s3", symbol := "BTC/USDT", side := .buy,
    order_type := .limit, price := some 39000, quantity := 0.1 }

def c3_stored : Except String LedgerState :=
  (place_order c3_limit_order c3_state).map Prod.snd

/-! ## Claim C7 -/
/-- Applying a sequence of fills through `_update_position` (each fill is an
order together with its fill price, exactly the two arguments the source
passes). -/
def apply_fills (fills : List (Order × ℚ)) (s : LedgerState) : LedgerState :=
  fills.foldl (fun st f => update_position f.1 f.2 st) s

/-- Spec-side: the total filled quantity of a fill sequence. -/
def fills_qty (fills : List (Order × ℚ)) : ℚ :=
  (fills.map (fun f => f.1.quantity)).sum

/-- Spec-side: the total notional `Σ fill_price·quantity` of a fill
sequence (the numerator of the volume-weighted average). -/
def fills_notional (fills : List (Order × ℚ)) : ℚ :=
  (fills.map (fun f => f.2 * f.1.quantity)).sum

def c7_fill_a : Order :=
  { order_id := 11, strategy_id := "s7", symbol := "BTC/USDT", side := .buy,
    quantity := 1 }

def c7_fill_b : Order :=
  { order_id := 12, strategy_id := "s7", symbol := "BTC/USDT", side := .buy,
    quantity := 3 }

def c7_fills : List (Order × ℚ) := [(c7_fill_a, 100), (c7_fill_b, 200)]

def c7_state : LedgerState := connect (init_adapter 1000 0 0 0)

/-! ## Claim C9 -/
/-- Spec-side: the last `w` elements of a list, written independently of the
code's slicing (reverse, take, reverse). -/
def last_window (prices : List ℚ) (w : ℕ) : List ℚ :=
  (prices.reverse.take w).reverse

/-- Spec-side: the arithmetic mean of a list of prices. -/
def arith_mean (l : List ℚ) : ℚ := l.sum / (l.length : ℚ)

/-! ## Claim C10 -/
def c10_pos : Position :=
  { strategy_id := "s10", symbol := "BTC/USDT", side := .long,
    entry_price := 40000, quantity := 0.1, current_price := 42000 }

def c10_cfg : BacktestConfig := { symbol := "BTC/USDT", timeframe := "1h" }

def c10_candle : Candle :=
  { symbol := "BTC/USDT", timestamp := 1, open_price := 42000, high := 42000,
    low := 42000, close := 42000 }

def c8_hold : Strategy Unit :=
  { required_candles := 0, init_state := ()
    on_bar := fun st _ => (st, { action := .hold }) }

def c8_cfg : BacktestConfig :=
  { symbol := "B", timeframe := "1h", initial_capital := 100,
    commission_rate := 0, slippage_rate := 0 }

def c8_candle : Candle :=
  { symbol := "B", timestamp := 9, open_price := 5, high := 5, low := 5,
    close := 5 }

def c8_es0 : EngineState Unit := init_engine_state c8_hold c8_cfg 0

def c8_es1 : EngineState Unit :=
  { led := { initial_balance := 100, commission_rate := 0, slippage_rate := 0,
             connected := true, balance := 100, current_prices := [("B", 5)],
             now := 0 }
    strat_state := ()
    signals := [{ action := .hold }]
    equity_curve := [{ timestamp := 9, equity := 100, price := 5 }]
    peak_equity := 100
    max_drawdown := 0 }

def c4_hold : Strategy Unit :=
  { required_candles := 0, init_state := ()
    on_bar := fun st _ => (st, { action := .hold }) }

def c4_cfg : BacktestConfig :=
  { symbol := "B", timeframe := "1h", initial_capital := 123 }

/-! ## Claim C5: clock-translation equivariance

Two runs of the engine differ only in the wall clock (`t0`).  We prove that
shifting the clock by `d` shifts exactly the wall-clock timestamp fields of
the resulting state and leaves everything else — balances, positions'
economic fields, fills, the equity curve — untouched.  The strategy must not
inspect the wall-clock fields of the positions in its snapshot
(`time_insensitive`), which every strategy driven by prices/indicators
satisfies; a clock-reading strategy could genuinely break determinism. -/
def shift_order (d : ℕ) (o : Order) : Order :=
  { o with
    timestamp := o.timestamp + d
    submitted_at := o.submitted_at.map (· + d)
    filled_at := o.filled_at.map (· + d) }

def shift_position (d : ℕ) (p : Position) : Position :=
  { p with
    opened_at := p.opened_at + d
    closed_at := p.closed_at.map (· + d) }

def shift_ledger (d : ℕ) (s : LedgerState) : LedgerState :=
  { s with
    now := s.now + d
    orders := s.orders.map (fun kv => (kv.1, shift_order d kv.2))
    positions := s.positions.map (fun kv => (kv.1, shift_position d kv.2))
    trade_history := s.trade_history.map (shift_order d) }

def shift_ctx (d : ℕ) (ctx : StrategyContext) : StrategyContext :=
  { ctx with
    positions := ctx.positions.map (shift_position d)
    all_positions := ctx.all_positions.map (shift_position d) }

/-- A strategy whose decision does not read the wall-clock timestamp fields
of the open positions in its snapshot (the only clock-derived data a snapshot
contains). -/
def time_insensitive {σ : Type} (strat : Strategy σ) : Prop :=
  ∀ (st : σ) (ctx : StrategyContext) (d : ℕ),
    strat.on_bar st (shift_ctx d ctx) = strat.on_bar st ctx

def shift_trade (d : ℕ) (t : TradeEntry) : TradeEntry :=
  { t with timestamp := t.timestamp.map (· + d) }

def shift_result (d : ℕ) (r : BacktestResult) : BacktestResult :=
  { r with trades := r.trades.map (shift_trade d) }

def strip_trade_time (t : TradeEntry) : TradeEntry := { t with timestamp := none }

def shift_engine_state (d : ℕ) {σ : Type} (es : EngineState σ) : EngineState σ :=
  { es with led := shift_ledger d es.led }

def c5_buy : Strategy Unit :=
  { required_candles := 0, init_state := ()
    on_bar := fun st ctx =>
      (st, { action := .buy, symbol := ctx.symbol, strategy_id := "c5",
             position_size := 0.5 }) }

def c5_cfg : BacktestConfig :=
  { symbol := "B", timeframe := "1h", initial_capital := 10000,
    commission_rate := 0, slippage_rate := 0 }

def c5_candle : Candle :=
  { symbol := "B", timestamp := 100, open_price := 100, high := 100, low := 100,
    close := 100 }

def c5_hold : Strategy Unit :=
  { required_candles := 0, init_state := ()
    on_bar := fun st _ => (st, { action := .hold }) }

/-! ## Shared helper lemmas -/
theorem alist_lookup_insert_self {κ α : Type} [DecidableEq κ]
    (l : List (κ × α)) (k : κ) (v : α) :
    alist_lookup (alist_insert l k v) k = some v := by
  induction l with
  | nil => simp [alist_insert, alist_lookup]
  | cons hd tl ih =>
      by_cases h : hd.1 = k
      · simp [alist_insert, alist_lookup, h]
      · simpa [alist_insert, alist_lookup, h] using ih

theorem set_current_price_orders (s : LedgerState) (sym : String) (price : ℚ) :
    (set_current_price sym price s).orders = s.orders := by
  unfold set_current_price
  split <;> rfl

/-- C1.  Evaluation of the claim's own scenario on the code: BUY 0.1 at mark
40000 then CLOSE at mark 42000 with zero slippage and commission, starting
from capital 10000.  Closing does remove the position, but
`_close_position_internal` credits `fill_price*quantity + pnl`, so the final
balance is 10400 = initial + 2·(42000−40000)·0.1, not the claimed
initial + 200: the realized P&L is credited twice. -/
theorem c1_close_credits_pnl_twice :
    c1_final.map (fun s => (s.balance, alist_lookup s.positions "BTC/USDT")) =
      .ok (10400, none) ∧ (10400 : ℚ) ≠ 10000 + 200 := by
  constructor
  · norm_num [c1_final, c1_start, c1_buy_order, place_order, close_position,
      close_position_internal, set_current_price, connect, init_adapter,
      alist_insert, alist_lookup, alist_erase, Order.mark_submitted,
      Order.mark_filled, update_position, Position.update_price,
      fill_price_for, limit_hold, insufficient_balance, fill_market_order,
      debit_buy, store_fill,
      insufficient_balance_msg, Except.map, Except.bind]
    simp +decide
    all_goals norm_num
  · norm_num

/-! ## Claim C2 -/
/-- C2.  A BUY market order whose notional plus commission exceeds the
available balance is returned REJECTED with the message naming the available
balance and the required total, and the ledger state (balance and
open-position map included) is returned unchanged. -/
theorem c2_buy_insufficient_balance_rejected
    (s : LedgerState) (o : Order) (p : ℚ)
    (hc : s.connected = true)
    (hp : alist_lookup s.current_prices o.symbol = some p)
    (hside : o.side = OrderSide.buy)
    (htype : o.order_type = OrderType.market)
    (hbal : s.balance < buy_total_cost o p s) :
    place_order o s =
      .ok (o.mark_rejected (insufficient_balance_msg s.balance (buy_total_cost o p s)), s) ∧
    (o.mark_rejected (insufficient_balance_msg s.balance (buy_total_cost o p s))).status =
      OrderStatus.rejected := by
  refine ⟨?_, rfl⟩
  have hfp : fill_price_for o.side p s.slippage_rate = p * (1 + s.slippage_rate) := by
    rw [hside]; rfl
  have hins : insufficient_balance o (fill_price_for o.side p s.slippage_rate) s := by
    rw [insufficient_balance, hfp]
    rw [buy_total_cost] at hbal
    exact ⟨hside, hbal⟩
  have hlim : ¬ limit_hold o (fill_price_for o.side p s.slippage_rate) := by
    simp [limit_hold, htype]
  unfold place_order
  rw [hc, hp]
  simp only [Bool.true_eq_false, if_false]
  rw [if_neg hlim, if_pos hins, hfp, buy_total_cost]

/-- C2 witness: the spec's scenario (1.0 unit at mark 40000 against a 10000
balance, 0.1% commission, 0.05% slippage) is rejected with the state
unchanged. -/
theorem c2_buy_insufficient_balance_rejected_witness :
    c2_state.balance < buy_total_cost c2_order 40000 c2_state ∧
    place_order c2_order c2_state =
      .ok (c2_order.mark_rejected
            (insufficient_balance_msg c2_state.balance
              (buy_total_cost c2_order 40000 c2_state)), c2_state) :=
  ⟨by norm_num [c2_state, c2_order, buy_total_cost, set_current_price, connect,
      init_adapter, alist_insert, alist_lookup],
   (c2_buy_insufficient_balance_rejected c2_state c2_order 40000 rfl
      (by simp [c2_state, c2_order, set_current_price, connect, init_adapter,
        alist_insert, alist_lookup])
      rfl rfl
      (by norm_num [c2_state, c2_order, buy_total_cost, set_current_price, connect,
        init_adapter, alist_insert, alist_lookup])).1⟩

/-! ## Claim C6 -/
/-- C6 (amended).  Whenever `place_order` returns an order in status
REJECTED (either rejection path: unknown mark price, or insufficient balance
on a BUY), the returned order carries a human-readable reason in
`error_message`, but the ledger state is returned entirely unchanged — in
particular the rejected order is NOT recorded in the ledger's order map or
trade history. -/
theorem c6_rejected_order_reason_and_state_unchanged
    (s : LedgerState) (o o2 : Order) (s2 : LedgerState)
    (h : place_order o s = .ok (o2, s2))
    (hrej : o2.status = OrderStatus.rejected) :
    o2.error_message.isSome ∧ s2 = s := by
  unfold place_order fill_market_order debit_buy store_fill at h
  dsimp only at h
  split at h
  · exact absurd h (by simp)
  · split at h
    case h_1 =>
      simp only [Except.ok.injEq, Prod.mk.injEq] at h
      obtain ⟨h1, h2⟩ := h
      subst h1 h2
      simp [Order.mark_rejected]
    case h_2 current_price heq =>
      split at h
      · simp only [Except.ok.injEq, Prod.mk.injEq] at h
        obtain ⟨ha, hb⟩ := h
        subst ha
        simp at hrej
      · split at h
        · simp only [Except.ok.injEq, Prod.mk.injEq] at h
          obtain ⟨ha, hb⟩ := h
          subst ha hb
          simp [Order.mark_rejected]
        · simp only [Except.ok.injEq, Prod.mk.injEq] at h
          obtain ⟨ha, hb⟩ := h
          subst ha
          simp only [Order.mark_filled, Order.mark_submitted] at hrej
          split at hrej <;> simp at hrej

/-- C6 counterexample: a concrete insufficient-balance rejection.  The
returned order has status REJECTED and carries a reason, but the ledger's
order map and trade history are both still empty afterwards — the rejected
order does not "remain in the ledger's order history". -/
theorem c6_rejected_order_absent_from_history :
    (place_order c6_order c6_state).map
      (fun p => (p.1.status, p.1.error_message.isSome,
                 p.2.orders.length, p.2.trade_history.length)) =
      .ok (OrderStatus.rejected, true, 0, 0) := by
  norm_num [c6_state, c6_order, place_order, set_current_price, connect,
    init_adapter, alist_insert, alist_lookup, Order.mark_rejected,
    fill_price_for, limit_hold, insufficient_balance, fill_market_order,
      debit_buy, store_fill,
    insufficient_balance_msg, Except.map]
  all_goals simp +decide
  all_goals norm_num

/-- C6 witness for the amended theorem, at the same concrete rejection. -/
theorem c6_rejected_order_reason_and_state_unchanged_witness :
    (c6_order.mark_rejected (insufficient_balance_msg c6_state.balance
        (1 * (40000 * (1 + c6_state.slippage_rate)) +
         1 * (40000 * (1 + c6_state.slippage_rate)) * c6_state.commission_rate)
      )).error_message.isSome ∧ c6_state = c6_state :=
  c6_rejected_order_reason_and_state_unchanged c6_state c6_order _ c6_state
    (by norm_num [c6_state, c6_order, place_order, set_current_price, connect,
        init_adapter, alist_insert, alist_lookup,
        fill_price_for, limit_hold, insufficient_balance, fill_market_order,
      debit_buy, store_fill,
        insufficient_balance_msg]
        all_goals simp +decide
        all_goals norm_num)
    (by simp [Order.mark_rejected])

/-- C3.  A LIMIT BUY at limit 39000 while the mark is 40000 is stored
SUBMITTED; but `set_current_price` never touches the stored orders, so after
the mark moves to 38000 (a price satisfying the limit) the stored order is
still SUBMITTED, no trade appears in history and no position is opened — the
claimed transition to FILLED at a later satisfying step never happens. -/
theorem c3_limit_order_never_filled_by_price_update :
    (∀ (s : LedgerState) (sym : String) (price : ℚ),
        (set_current_price sym price s).orders = s.orders) ∧
    c3_stored.map (fun s =>
        ((alist_lookup s.orders 7).map Order.status, s.trade_history.length)) =
      .ok (some OrderStatus.submitted, 0) ∧
    c3_stored.map (fun s =>
        ((alist_lookup (set_current_price "BTC/USDT" 38000 s).orders 7).map Order.status,
         (set_current_price "BTC/USDT" 38000 s).trade_history.length,
         (set_current_price "BTC/USDT" 38000 s).positions.length)) =
      .ok (some OrderStatus.submitted, 0, 0) := by
  refine ⟨set_current_price_orders, ?_, ?_⟩ <;>
  · norm_num [c3_stored, c3_state, c3_limit_order, place_order,
      set_current_price, connect, init_adapter, alist_insert, alist_lookup,
      fill_price_for, limit_hold, insufficient_balance, fill_market_order,
      debit_buy, store_fill, Except.map]
    all_goals simp +decide
    all_goals norm_num

theorem update_position_buy_existing
    (o : Order) (fp : ℚ) (s : LedgerState) (pos : Position)
    (hside : o.side = OrderSide.buy)
    (hlook : alist_lookup s.positions o.symbol = some pos)
    (hlong : pos.side = PositionSide.long) :
    update_position o fp s =
      { s with positions := (alist_insert s.positions o.symbol
          { pos with
            entry_price := (pos.entry_price * pos.quantity + fp * o.quantity) /
              (pos.quantity + o.quantity)
            quantity := pos.quantity + o.quantity
            current_price := fp }) } := by
  unfold update_position
  dsimp only
  rw [hside]
  dsimp only
  rw [hlook]
  dsimp only
  rw [hlong]

theorem update_position_buy_new
    (o : Order) (fp : ℚ) (s : LedgerState)
    (hside : o.side = OrderSide.buy)
    (hlook : alist_lookup s.positions o.symbol = none) :
    update_position o fp s =
      { s with positions := (alist_insert s.positions o.symbol
          { strategy_id := o.strategy_id
            symbol := o.symbol
            market_type := o.market_type
            side := .long
            entry_price := fp
            quantity := o.quantity
            current_price := fp
            stop_loss := o.stop_loss
            take_profit := o.take_profit
            opened_at := s.now }) } := by
  unfold update_position
  dsimp only
  rw [hside]
  dsimp only
  rw [hlook]

/-- Accumulation lemma for C7: applying BUY fills to an existing LONG
position re-averages stepwise into the global weighted average. -/
theorem apply_fills_on_long :
    ∀ (fills : List (Order × ℚ)) (s : LedgerState) (sym : String) (pos : Position),
      alist_lookup s.positions sym = some pos →
      pos.side = PositionSide.long →
      0 < pos.quantity →
      (∀ f ∈ fills, f.1.side = OrderSide.buy ∧ f.1.symbol = sym ∧ 0 < f.1.quantity) →
      ∃ pos2 : Position,
        alist_lookup (apply_fills fills s).positions sym = some pos2 ∧
        pos2.side = PositionSide.long ∧
        pos2.quantity = pos.quantity + fills_qty fills ∧
        pos2.entry_price = (pos.entry_price * pos.quantity + fills_notional fills) /
          (pos.quantity + fills_qty fills)
  | [], s, sym, pos, hlook, hlong, hq, _ => by
      refine ⟨pos, ?_, hlong, ?_, ?_⟩
      · simpa [apply_fills] using hlook
      · simp [fills_qty]
      · simp only [fills_qty, fills_notional, List.map_nil, List.sum_nil, add_zero]
        rw [mul_div_assoc, div_self (ne_of_gt hq), mul_one]
  | f :: rest, s, sym, pos, hlook, hlong, hq, hf => by
      obtain ⟨hfside, hfsym, hfq⟩ := hf f (List.mem_cons_self f rest)
      have hrest : ∀ g ∈ rest, g.1.side = OrderSide.buy ∧ g.1.symbol = sym ∧
          0 < g.1.quantity := fun g hg => hf g (List.mem_cons_of_mem f hg)
      have hq1 : (0 : ℚ) < pos.quantity + f.1.quantity := by linarith
      have hstep := update_position_buy_existing f.1 f.2 s pos
        hfside (by rw [hfsym]; exact hlook) hlong
      have hl1 : alist_lookup (alist_insert s.positions f.1.symbol
          { pos with
            entry_price := (pos.entry_price * pos.quantity + f.2 * f.1.quantity) /
              (pos.quantity + f.1.quantity)
            quantity := pos.quantity + f.1.quantity
            current_price := f.2 }) sym = some
          { pos with
            entry_price := (pos.entry_price * pos.quantity + f.2 * f.1.quantity) /
              (pos.quantity + f.1.quantity)
            quantity := pos.quantity + f.1.quantity
            current_price := f.2 } := by
        rw [← hfsym]
        exact alist_lookup_insert_self _ _ _
      obtain ⟨pos2, hl2, hs2, hq2, he2⟩ :=
        apply_fills_on_long rest
          { s with positions := (alist_insert s.positions f.1.symbol
              { pos with
                entry_price := (pos.entry_price * pos.quantity + f.2 * f.1.quantity) /
                  (pos.quantity + f.1.quantity)
                quantity := pos.quantity + f.1.quantity
                current_price := f.2 }) }
          sym _ hl1 hlong hq1 hrest
      have happ : apply_fills (f :: rest) s =
          apply_fills rest (update_position f.1 f.2 s) := rfl
      rw [happ, hstep]
      refine ⟨pos2, hl2, hs2, ?_, ?_⟩
      · rw [hq2]
        simp only [fills_qty, List.map_cons, List.sum_cons]
        ring
      · rw [he2]
        have hcancel : (pos.entry_price * pos.quantity + f.2 * f.1.quantity) /
            (pos.quantity + f.1.quantity) * (pos.quantity + f.1.quantity) =
            pos.entry_price * pos.quantity + f.2 * f.1.quantity :=
          div_mul_cancel₀ _ (ne_of_gt hq1)
        simp only [hcancel]
        simp only [fills_notional, fills_qty, List.map_cons, List.sum_cons]
        ring

/-- C7.  For every nonempty sequence of filled BUY orders on one symbol
applied to a ledger with no open position for that symbol (and no
intervening close), the resulting open position is LONG, its quantity is the
sum of the filled quantities, and its entry price is the volume-weighted
average `Σ price·qty / Σ qty` of the fill prices — the stepwise re-averaging
`new_entry = (old_entry·old_qty + fill_price·fill_qty)/(old_qty+fill_qty)`
the code performs telescopes to the global VWAP. -/
theorem c7_buy_fills_vwap (s : LedgerState) (sym : String)
    (fills : List (Order × ℚ))
    (hne : fills ≠ [])
    (hf : ∀ f ∈ fills, f.1.side = OrderSide.buy ∧ f.1.symbol = sym ∧ 0 < f.1.quantity)
    (hnopos : alist_lookup s.positions sym = none) :
    ((alist_lookup (apply_fills fills s).positions sym).map Position.side =
       some PositionSide.long) ∧
    ((alist_lookup (apply_fills fills s).positions sym).map Position.quantity =
       some (fills_qty fills)) ∧
    ((alist_lookup (apply_fills fills s).positions sym).map Position.entry_price =
       some (fills_notional fills / fills_qty fills)) := by
  match fills, hne with
  | f :: rest, _ =>
    obtain ⟨hfside, hfsym, hfq⟩ := hf f (List.mem_cons_self f rest)
    have hstep := update_position_buy_new f.1 f.2 s hfside (by rw [hfsym]; exact hnopos)
    have hrest : ∀ g ∈ rest, g.1.side = OrderSide.buy ∧ g.1.symbol = sym ∧
        0 < g.1.quantity := fun g hg => hf g (List.mem_cons_of_mem f hg)
    have happ : apply_fills (f :: rest) s =
        apply_fills rest (update_position f.1 f.2 s) := rfl
    have hl1 : alist_lookup (alist_insert s.positions f.1.symbol
        { strategy_id := f.1.strategy_id
          symbol := f.1.symbol
          market_type := f.1.market_type
          side := .long
          entry_price := f.2
          quantity := f.1.quantity
          current_price := f.2
          stop_loss := f.1.stop_loss
          take_profit := f.1.take_profit
          opened_at := s.now }) sym = some
        { strategy_id := f.1.strategy_id
          symbol := f.1.symbol
          market_type := f.1.market_type
          side := .long
          entry_price := f.2
          quantity := f.1.quantity
          current_price := f.2
          stop_loss := f.1.stop_loss
          take_profit := f.1.take_profit
          opened_at := s.now } := by
      rw [← hfsym]
      exact alist_lookup_insert_self _ _ _
    obtain ⟨pos2, hl2, hs2, hq2, he2⟩ :=
      apply_fills_on_long rest
        { s with positions := (alist_insert s.positions f.1.symbol
            { strategy_id := f.1.strategy_id
              symbol := f.1.symbol
              market_type := f.1.market_type
              side := .long
              entry_price := f.2
              quantity := f.1.quantity
              current_price := f.2
              stop_loss := f.1.stop_loss
              take_profit := f.1.take_profit
              opened_at := s.now }) }
        sym _ hl1 rfl hfq hrest
    rw [happ, hstep]
    rw [hl2]
    refine ⟨by simp [hs2], by simp [hq2, fills_qty], ?_⟩
    simp only [Option.map_some', he2]
    congr 1
    all_goals simp only [fills_notional, fills_qty, List.map_cons, List.sum_cons]
    all_goals ring

/-- C7 witness: two BUY fills (1 unit at 100, then 3 units at 200) on an
empty book give a LONG position of quantity 4 at entry 175 = 700/4. -/
theorem c7_buy_fills_vwap_witness :
    c7_fills ≠ [] ∧
    alist_lookup c7_state.positions "BTC/USDT" = none ∧
    ((alist_lookup (apply_fills c7_fills c7_state).positions "BTC/USDT").map
        Position.quantity = some (fills_qty c7_fills)) ∧
    ((alist_lookup (apply_fills c7_fills c7_state).positions "BTC/USDT").map
        Position.entry_price = some (fills_notional c7_fills / fills_qty c7_fills)) ∧
    fills_qty c7_fills = 4 ∧
    fills_notional c7_fills / fills_qty c7_fills = 175 := by
  have hf : ∀ f ∈ c7_fills, f.1.side = OrderSide.buy ∧ f.1.symbol = "BTC/USDT" ∧
      0 < f.1.quantity := by
    intro f hmem
    simp only [c7_fills, List.mem_cons, List.not_mem_nil, or_false] at hmem
    rcases hmem with h | h <;> subst h <;>
      exact ⟨rfl, rfl, by norm_num [c7_fill_a, c7_fill_b]⟩
  have h := c7_buy_fills_vwap c7_state "BTC/USDT" c7_fills (by simp [c7_fills])
    hf rfl
  exact ⟨by simp [c7_fills], rfl, h.2.1, h.2.2,
    by norm_num [fills_qty, c7_fills, c7_fill_a, c7_fill_b],
    by norm_num [fills_notional, fills_qty, c7_fills, c7_fill_a, c7_fill_b]⟩

/-- C9.  `IndicatorCalculator.sma` returns none when fewer than `w` prices
exist, and otherwise (for `w ≥ 1`) returns exactly the arithmetic mean of the
last `w` prices; on 10,20,30,40,50 with window 3 the value is exactly 40. -/
theorem c9_sma_mean_of_last_window :
    (∀ (prices : List ℚ) (w : ℕ), prices.length < w → sma prices w = none) ∧
    (∀ (prices : List ℚ) (w : ℕ), 1 ≤ w → w ≤ prices.length →
        sma prices w = some (arith_mean (last_window prices w))) ∧
    sma [10, 20, 30, 40, 50] 3 = some 40 := by
  refine ⟨?_, ?_, ?_⟩
  · intro prices w h
    simp [sma, h]
  · intro prices w h1 h2
    have hnot : ¬ prices.length < w := not_lt.mpr h2
    simp only [sma, hnot, if_false]
    have hlw : last_window prices w = prices.drop (prices.length - w) := by
      rw [last_window, ← List.rtake_eq_reverse_take_reverse, List.rtake]
    rw [hlw, arith_mean, List.length_drop]
    have hw : prices.length - (prices.length - w) = w := by omega
    rw [hw]
  · norm_num [sma, arith_mean, last_window, List.sum_cons]

/-- C9 witness: the second part of the theorem applied at the spec's
scenario, together with the evaluated mean. -/
theorem c9_sma_mean_of_last_window_witness :
    (1 ≤ 3 ∧ 3 ≤ ([10, 20, 30, 40, 50] : List ℚ).length) ∧
    sma [10, 20, 30, 40, 50] 3 =
      some (arith_mean (last_window [10, 20, 30, 40, 50] 3)) ∧
    arith_mean (last_window [10, 20, 30, 40, 50] 3) = 40 :=
  ⟨⟨by norm_num, by norm_num⟩,
   c9_sma_mean_of_last_window.2.1 [10, 20, 30, 40, 50] 3 (by norm_num) (by norm_num),
   by norm_num [arith_mean, last_window, List.sum_cons]⟩

/-- C10.  Every `StrategyContext` the replay loop hands to the strategy is
built by `mk_context` (see `run_step`), whose account state sets
`equity := balance` — the available cash — unconditionally; in particular in
a concrete snapshot whose open position carries unrealized P&L of 200, the
account still reports equity = balance = 6000. -/
theorem c10_snapshot_equity_equals_balance :
    (∀ (cfg : BacktestConfig) (candle : Candle) (historical : List Candle)
        (indicators : List (String × Option ℚ)) (balance : ℚ)
        (positions all_positions : List Position),
      (mk_context cfg candle historical indicators balance positions
          all_positions).account.equity =
        (mk_context cfg candle historical indicators balance positions
          all_positions).account.balance) ∧
    c10_pos.unrealized_pnl = 200 ∧
    (mk_context c10_cfg c10_candle [c10_candle] [] 6000 [c10_pos]
        [c10_pos]).account.equity = 6000 ∧
    (mk_context c10_cfg c10_candle [c10_candle] [] 6000 [c10_pos]
        [c10_pos]).account.balance = 6000 := by
  refine ⟨fun _ _ _ _ _ _ _ => rfl, ?_, rfl, rfl⟩
  norm_num [Position.unrealized_pnl, c10_pos]

/-! ## Claim C8 -/
theorem run_step_max_drawdown {σ : Type} (strat : Strategy σ)
    (cfg : BacktestConfig) (candles : List Candle) (es : EngineState σ)
    (ic : ℕ × Candle) (es2 : EngineState σ)
    (h : run_step strat cfg candles es ic = .ok es2) :
    es.max_drawdown ≤ es2.max_drawdown ∧ 0 ≤ es2.max_drawdown := by
  unfold run_step at h
  unfold Except.map at h
  dsimp only at h
  split at h
  case h_1 => exact absurd h (by simp)
  case h_2 led2 heq =>
    simp only [Except.ok.injEq] at h
    subst h
    dsimp only
    constructor
    · split_ifs <;> linarith
    · split_ifs <;> linarith

theorem run_loop_max_drawdown {σ : Type} (strat : Strategy σ)
    (cfg : BacktestConfig) (candles : List Candle) :
    ∀ (l : List (ℕ × Candle)) (es es2 : EngineState σ),
      run_loop strat cfg candles l es = .ok es2 →
      0 ≤ es.max_drawdown → 0 ≤ es2.max_drawdown
  | [], es, es2, h, h0 => by
      simp only [run_loop, Except.ok.injEq] at h
      subst h
      exact h0
  | ic :: rest, es, es2, h, h0 => by
      simp only [run_loop] at h
      cases hstep : run_step strat cfg candles es ic with
      | error e => rw [hstep] at h; exact absurd h (by simp [Except.bind])
      | ok es1 =>
          rw [hstep] at h
          simp only [Except.bind] at h
          exact run_loop_max_drawdown strat cfg candles rest es1 es2 h
            (run_step_max_drawdown strat cfg candles es ic es1 hstep).2

/-- C8.  The tracked max drawdown never decreases across a replay step, and
along any loop run started from the engine's initial state (max drawdown
seeded at 0) it stays ≥ 0 at every step. -/
theorem c8_max_drawdown_monotone_nonneg :
    (∀ {σ : Type} (strat : Strategy σ) (cfg : BacktestConfig)
        (candles : List Candle) (es : EngineState σ) (ic : ℕ × Candle)
        (es2 : EngineState σ),
      run_step strat cfg candles es ic = .ok es2 →
      es.max_drawdown ≤ es2.max_drawdown ∧ 0 ≤ es2.max_drawdown) ∧
    (∀ {σ : Type} (strat : Strategy σ) (cfg : BacktestConfig)
        (candles : List Candle) (t0 : ℕ) (l : List (ℕ × Candle))
        (es2 : EngineState σ),
      run_loop strat cfg candles l (init_engine_state strat cfg t0) = .ok es2 →
      0 ≤ es2.max_drawdown) :=
  ⟨fun strat cfg candles es ic es2 h =>
      run_step_max_drawdown strat cfg candles es ic es2 h,
   fun strat cfg candles _t0 l es2 h =>
      run_loop_max_drawdown strat cfg candles l _ es2 h le_rfl⟩

/-- C8 witness: one concrete HOLD step and the empty loop, with both parts of
the theorem applied. -/
theorem c8_max_drawdown_monotone_nonneg_witness :
    run_step c8_hold c8_cfg [c8_candle] c8_es0 (0, c8_candle) = .ok c8_es1 ∧
    c8_es0.max_drawdown ≤ c8_es1.max_drawdown ∧ 0 ≤ c8_es1.max_drawdown ∧
    0 ≤ c8_es0.max_drawdown := by
  have hstep : run_step c8_hold c8_cfg [c8_candle] c8_es0 (0, c8_candle) =
      .ok c8_es1 := by
    norm_num [run_step, c8_hold, c8_cfg, c8_candle, c8_es0, c8_es1,
      init_engine_state, init_adapter, connect, set_current_price,
      calculate_indicators, get_positions, get_available_balance, mk_context,
      Signal.is_actionable, calculate_equity, get_account_balance,
      sum_unrealized, alist_insert, alist_lookup, Except.map]
    all_goals simp +decide
    all_goals norm_num
  refine ⟨hstep,
    (c8_max_drawdown_monotone_nonneg.1 c8_hold c8_cfg [c8_candle] c8_es0
      (0, c8_candle) c8_es1 hstep).1,
    (c8_max_drawdown_monotone_nonneg.1 c8_hold c8_cfg [c8_candle] c8_es0
      (0, c8_candle) c8_es1 hstep).2,
    c8_max_drawdown_monotone_nonneg.2 c8_hold c8_cfg [] 0 [] c8_es0 rfl⟩

/-! ## Claim C4 -/
/-- C4 (amended).  With an empty candle series and nonzero initial capital,
`run` returns a degenerate zero-trade result without raising: no trades, an
empty equity curve, no signals, and final capital equal to the initial
capital. -/
theorem c4_run_empty_series_zero_trades {σ : Type} (strat : Strategy σ)
    (cfg : BacktestConfig) (t0 : ℕ) (h : cfg.initial_capital ≠ 0) :
    ∃ r : BacktestResult, run strat cfg [] t0 = .ok r ∧
      r.total_trades = 0 ∧ r.trades = [] ∧ r.equity_curve = [] ∧
      r.signals = [] ∧ r.final_capital = cfg.initial_capital := by
  unfold run run_loop close_remaining close_positions_list get_positions
    init_engine_state init_adapter connect calculate_equity
    get_account_balance sum_unrealized
  simp only [List.enum_nil, List.drop_nil, Except.bind, List.map_nil,
    List.filter_nil, List.length_nil, List.sum_nil, add_zero]
  rw [if_neg h]
  exact ⟨_, rfl, rfl, rfl, rfl, rfl, rfl⟩

/-- C4 counterexample: with zero initial capital the engine does raise — the
unguarded division `(final - initial)/initial * 100` in the result assembly
fails, even on an empty series — contradicting the claim that non-positive
capital degrades gracefully. -/
theorem c4_run_zero_capital_raises :
    run c4_hold { c4_cfg with initial_capital := 0 } [] 0 =
      .error "decimal.DivisionByZero: total_return_pct" := by
  unfold run run_loop close_remaining close_positions_list get_positions
    init_engine_state init_adapter connect calculate_equity
    get_account_balance sum_unrealized
  simp only [List.enum_nil, List.drop_nil, Except.bind, List.map_nil]
  simp

/-- C4 witness for the amended theorem at a concrete configuration. -/
theorem c4_run_empty_series_zero_trades_witness :
    c4_cfg.initial_capital ≠ 0 ∧
    (∃ r : BacktestResult, run c4_hold c4_cfg [] 0 = .ok r ∧
      r.total_trades = 0 ∧ r.trades = [] ∧ r.equity_curve = [] ∧
      r.signals = [] ∧ r.final_capital = c4_cfg.initial_capital) :=
  ⟨by norm_num [c4_cfg],
   c4_run_empty_series_zero_trades c4_hold c4_cfg 0 (by norm_num [c4_cfg])⟩

theorem alist_lookup_map {κ α β : Type} [DecidableEq κ] (f : α → β) :
    ∀ (l : List (κ × α)) (k : κ),
      alist_lookup (l.map (fun kv => (kv.1, f kv.2))) k =
        (alist_lookup l k).map f
  | [], _ => rfl
  | (k1, v1) :: rest, k => by
      by_cases h : k1 = k <;>
        simp [alist_lookup, h, alist_lookup_map f rest k]

theorem alist_insert_map {κ α β : Type} [DecidableEq κ] (f : α → β) :
    ∀ (l : List (κ × α)) (k : κ) (v : α),
      (alist_insert l k v).map (fun kv => (kv.1, f kv.2)) =
        alist_insert (l.map (fun kv => (kv.1, f kv.2))) k (f v)
  | [], _, _ => rfl
  | (k1, v1) :: rest, k, v => by
      by_cases h : k1 = k <;>
        simp [alist_insert, h, alist_insert_map f rest k v]

theorem alist_erase_map {κ α β : Type} [DecidableEq κ] (f : α → β) :
    ∀ (l : List (κ × α)) (k : κ),
      (alist_erase l k).map (fun kv => (kv.1, f kv.2)) =
        alist_erase (l.map (fun kv => (kv.1, f kv.2))) k
  | [], _ => rfl
  | (k1, v1) :: rest, k => by
      by_cases h : k1 = k <;>
        simp [alist_erase, h, alist_erase_map f rest k]

theorem shift_position_update_price (d : ℕ) (p : Position) (x : ℚ) :
    (shift_position d p).update_price x = shift_position d (p.update_price x) := rfl

theorem shift_position_side (d : ℕ) (p : Position) :
    (shift_position d p).side = p.side := rfl

theorem shift_position_entry_price (d : ℕ) (p : Position) :
    (shift_position d p).entry_price = p.entry_price := rfl

theorem shift_position_quantity (d : ℕ) (p : Position) :
    (shift_position d p).quantity = p.quantity := rfl

theorem shift_position_symbol (d : ℕ) (p : Position) :
    (shift_position d p).symbol = p.symbol := rfl

theorem shift_position_unrealized (d : ℕ) (p : Position) :
    (shift_position d p).unrealized_pnl = p.unrealized_pnl := by
  unfold Position.unrealized_pnl shift_position
  cases p.side <;> rfl

theorem shift_ledger_positions (d : ℕ) (s : LedgerState) :
    (shift_ledger d s).positions =
      s.positions.map (fun kv => (kv.1, shift_position d kv.2)) := rfl

theorem shift_ledger_orders (d : ℕ) (s : LedgerState) :
    (shift_ledger d s).orders =
      s.orders.map (fun kv => (kv.1, shift_order d kv.2)) := rfl

theorem shift_ledger_balance (d : ℕ) (s : LedgerState) :
    (shift_ledger d s).balance = s.balance := rfl

theorem shift_ledger_current_prices (d : ℕ) (s : LedgerState) :
    (shift_ledger d s).current_prices = s.current_prices := rfl

theorem shift_ledger_now (d : ℕ) (s : LedgerState) :
    (shift_ledger d s).now = s.now + d := rfl

theorem set_current_price_shift (d : ℕ) (sym : String) (x : ℚ) (s : LedgerState) :
    set_current_price sym x (shift_ledger d s) =
      shift_ledger d (set_current_price sym x s) := by
  unfold set_current_price
  rw [shift_ledger_positions, alist_lookup_map]
  cases hl : alist_lookup s.positions sym with
  | none => rfl
  | some pos =>
      simp only [Option.map_some']
      rw [shift_position_update_price]
      unfold shift_ledger
      dsimp only
      rw [alist_insert_map]

theorem close_position_internal_shift (d : ℕ) (sym : String) (o : Order)
    (fp : ℚ) (s : LedgerState) :
    close_position_internal sym (shift_order d o) fp (shift_ledger d s) =
      shift_ledger d (close_position_internal sym o fp s) := by
  unfold close_position_internal
  rw [shift_ledger_positions, alist_lookup_map]
  cases hl : alist_lookup s.positions sym with
  | none => rfl
  | some pos =>
      simp only [Option.map_some', shift_position_side, shift_position_entry_price,
        shift_position_quantity]
      unfold shift_ledger
      dsimp only
      rw [alist_erase_map]

theorem mark_submitted_shift (d : ℕ) (o : Order) (b : String) (n : ℕ) :
    (shift_order d o).mark_submitted b (n + d) =
      shift_order d (o.mark_submitted b n) := rfl

theorem mark_filled_shift (d : ℕ) (o : Order) (fq fp cm : ℚ) (n : ℕ) :
    (shift_order d o).mark_filled fq fp cm (n + d) =
      shift_order d (o.mark_filled fq fp cm n) := by
  unfold Order.mark_filled shift_order
  dsimp only
  split <;> rfl

theorem mark_rejected_shift (d : ℕ) (o : Order) (m : String) :
    (shift_order d o).mark_rejected m = shift_order d (o.mark_rejected m) := rfl

theorem update_position_shift (d : ℕ) (o : Order) (fp : ℚ) (s : LedgerState) :
    update_position (shift_order d o) fp (shift_ledger d s) =
      shift_ledger d (update_position o fp s) := by
  unfold update_position
  dsimp only
  rw [show (shift_order d o).side = o.side from rfl,
      show (shift_order d o).symbol = o.symbol from rfl,
      shift_ledger_positions, alist_lookup_map]
  cases o.side with
  | buy =>
      cases hl : alist_lookup s.positions o.symbol with
      | none =>
          simp only [Option.map_none']
          unfold shift_ledger
          dsimp only
          rw [alist_insert_map]
          rfl
      | some pos =>
          cases hside : pos.side with
          | long =>
              simp only [Option.map_some', shift_position_side, hside,
                shift_position_entry_price, shift_position_quantity]
              unfold shift_ledger
              dsimp only
              rw [alist_insert_map]
              rfl
          | short =>
              simp only [Option.map_some', shift_position_side, hside]
              exact close_position_internal_shift d o.symbol o fp s
  | sell =>
      cases hl : alist_lookup s.positions o.symbol with
      | none => rfl
      | some pos =>
          cases hside : pos.side with
          | long =>
              simp only [Option.map_some', shift_position_side, hside]
              exact close_position_internal_shift d o.symbol o fp s
          | short =>
              simp only [Option.map_some', shift_position_side, hside]

theorem debit_buy_shift (d : ℕ) (o : Order) (fp : ℚ) (s : LedgerState) :
    debit_buy (shift_order d o) fp (shift_ledger d s) =
      shift_ledger d (debit_buy o fp s) := by
  unfold debit_buy
  rw [show (shift_order d o).side = o.side from rfl,
      show (shift_ledger d s).balance = s.balance from rfl,
      show (shift_order d o).quantity = o.quantity from rfl,
      show (shift_ledger d s).commission_rate = s.commission_rate from rfl]
  split <;> rfl

theorem store_fill_shift (d : ℕ) (o1 : Order) (s2 : LedgerState) :
    store_fill (shift_order d o1) (shift_ledger d s2) =
      shift_ledger d (store_fill o1 s2) := by
  unfold store_fill shift_ledger
  dsimp only
  rw [show (shift_order d o1).order_id = o1.order_id from rfl,
      alist_insert_map, List.map_append]
  simp only [List.map_cons, List.map_nil, LedgerState.mk.injEq, true_and, and_true]
  omega

theorem fill_market_order_shift (d : ℕ) (o : Order) (fp : ℚ) (s : LedgerState) :
    fill_market_order (shift_order d o) fp (shift_ledger d s) =
      (shift_order d (fill_market_order o fp s).1,
       shift_ledger d (fill_market_order o fp s).2) := by
  unfold fill_market_order
  dsimp only
  rw [show (shift_order d o).quantity = o.quantity from rfl,
      show (shift_ledger d s).commission_rate = s.commission_rate from rfl,
      debit_buy_shift,
      show (shift_ledger d (debit_buy o fp s)).now = (debit_buy o fp s).now + d
        from rfl,
      mark_submitted_shift, mark_filled_shift, update_position_shift,
      store_fill_shift]

theorem place_order_shift (d : ℕ) (o : Order) (s : LedgerState) :
    place_order (shift_order d o) (shift_ledger d s) =
      (place_order o s).map
        (fun p => (shift_order d p.1, shift_ledger d p.2)) := by
  unfold place_order
  dsimp only
  rw [show (shift_ledger d s).connected = s.connected from rfl,
      show (shift_order d o).symbol = o.symbol from rfl,
      show (shift_ledger d s).current_prices = s.current_prices from rfl,
      show (shift_ledger d s).slippage_rate = s.slippage_rate from rfl,
      show (shift_order d o).side = o.side from rfl]
  by_cases hc : s.connected = false
  · simp only [if_pos hc]
    rfl
  · simp only [if_neg hc]
    cases hp : alist_lookup s.current_prices o.symbol with
    | none => rfl
    | some cp =>
        dsimp only
        by_cases hlim : limit_hold o (fill_price_for o.side cp s.slippage_rate)
        · have hlim2 : limit_hold (shift_order d o)
              (fill_price_for o.side cp s.slippage_rate) := hlim
          rw [if_pos hlim2, if_pos hlim]
          simp only [Except.map, Prod.mk.injEq, Except.ok.injEq]
          refine ⟨rfl, ?_⟩
          unfold shift_ledger
          dsimp only
          rw [show (shift_order d o).order_id = o.order_id from rfl,
            alist_insert_map]
          rfl
        · have hlim2 : ¬ limit_hold (shift_order d o)
              (fill_price_for o.side cp s.slippage_rate) := hlim
          rw [if_neg hlim2, if_neg hlim]
          by_cases hins : insufficient_balance o
              (fill_price_for o.side cp s.slippage_rate) s
          · have hins2 : insufficient_balance (shift_order d o)
                (fill_price_for o.side cp s.slippage_rate) (shift_ledger d s) := hins
            rw [if_pos hins2, if_pos hins]
            rfl
          · have hins2 : ¬ insufficient_balance (shift_order d o)
                (fill_price_for o.side cp s.slippage_rate) (shift_ledger d s) := hins
            rw [if_neg hins2, if_neg hins]
            simp only [Except.map, Except.ok.injEq]
            exact fill_market_order_shift d o
              (fill_price_for o.side cp s.slippage_rate) s

theorem filter_map_comm_symbol (d : ℕ) (sy : String) :
    ∀ (l : List Position),
      (l.map (shift_position d)).filter (fun p => p.symbol == sy) =
        (l.filter (fun p => p.symbol == sy)).map (shift_position d)
  | [] => rfl
  | p :: rest => by
      by_cases h : p.symbol == sy <;>
        simp [List.filter, shift_position_symbol, h,
          filter_map_comm_symbol d sy rest]

theorem get_positions_shift (d : ℕ) (sym : Option String) (s : LedgerState) :
    get_positions sym (shift_ledger d s) =
      (get_positions sym s).map (shift_position d) := by
  unfold get_positions
  rw [shift_ledger_positions]
  cases sym with
  | none => simp [List.map_map]
  | some sy =>
      dsimp only
      rw [show (List.map (fun kv => (kv.1, shift_position d kv.2))
            s.positions).map Prod.snd =
          (s.positions.map Prod.snd).map (shift_position d) by
        simp [List.map_map]]
      exact filter_map_comm_symbol d sy _

theorem get_available_balance_shift (d : ℕ) (c : String) (s : LedgerState) :
    get_available_balance c (shift_ledger d s) = get_available_balance c s := rfl

theorem sum_unrealized_shift (d : ℕ) (s : LedgerState) :
    sum_unrealized (shift_ledger d s) = sum_unrealized s := by
  unfold sum_unrealized
  rw [shift_ledger_positions, List.map_map]
  congr 1
  all_goals funext kv
  all_goals exact shift_position_unrealized d kv.2

theorem calculate_equity_shift (d : ℕ) (s : LedgerState) :
    calculate_equity (shift_ledger d s) = calculate_equity s := by
  unfold calculate_equity get_account_balance
  dsimp only
  rw [shift_ledger_balance, sum_unrealized_shift]

theorem close_position_shift (d : ℕ) (sym : String) (q : Option ℚ)
    (s : LedgerState) :
    close_position sym q (shift_ledger d s) =
      (close_position sym q s).map
        (fun p => (shift_order d p.1, shift_ledger d p.2)) := by
  unfold close_position
  rw [shift_ledger_positions, alist_lookup_map]
  cases hl : alist_lookup s.positions sym with
  | none => rfl
  | some pos =>
      dsimp only [Option.map_some']
      rw [show (shift_position d pos).quantity = pos.quantity from rfl,
          show (shift_position d pos).strategy_id = pos.strategy_id from rfl,
          show (shift_position d pos).market_type = pos.market_type from rfl,
          show (shift_position d pos).side = pos.side from rfl,
          show (shift_ledger d s).now = s.now + d from rfl]
      rw [show ({ strategy_id := pos.strategy_id, symbol := sym
                  market_type := pos.market_type
                  side := match pos.side with
                          | .long => OrderSide.sell
                          | .short => OrderSide.buy
                  order_type := OrderType.market
                  quantity := match q with
                              | none => pos.quantity
                              | some qq => if qq = 0 then pos.quantity else qq
                  timestamp := s.now + d } : Order) =
          shift_order d
            { strategy_id := pos.strategy_id, symbol := sym
              market_type := pos.market_type
              side := match pos.side with
                      | .long => OrderSide.sell
                      | .short => OrderSide.buy
              order_type := OrderType.market
              quantity := match q with
                          | none => pos.quantity
                          | some qq => if qq = 0 then pos.quantity else qq
              timestamp := s.now } from rfl]
      exact place_order_shift d _ s

theorem close_positions_list_shift (d : ℕ) :
    ∀ (ps : List Position) (s : LedgerState),
      close_positions_list (ps.map (shift_position d)) (shift_ledger d s) =
        (close_positions_list ps s).map (shift_ledger d)
  | [], s => rfl
  | pos :: rest, s => by
      simp only [close_positions_list, List.map_cons]
      rw [shift_position_symbol, close_position_shift]
      cases hres : close_position pos.symbol none s with
      | error e => rfl
      | ok p =>
          simp only [Except.map, Except.bind]
          exact close_positions_list_shift d rest p.2

theorem close_symbol_positions_shift (d : ℕ) (sym : String) (s : LedgerState) :
    close_symbol_positions sym (shift_ledger d s) =
      (close_symbol_positions sym s).map (shift_ledger d) := by
  unfold close_symbol_positions
  rw [get_positions_shift]
  exact close_positions_list_shift d _ s

theorem close_remaining_shift (d : ℕ) (s : LedgerState) :
    close_remaining (shift_ledger d s) =
      (close_remaining s).map (shift_ledger d) := by
  unfold close_remaining
  rw [get_positions_shift]
  exact close_positions_list_shift d _ s

theorem get_current_price_shift (d : ℕ) (sym : String) (s : LedgerState) :
    get_current_price sym (shift_ledger d s) = get_current_price sym s := rfl

theorem execute_signal_shift (d : ℕ) (sig : Signal) (cfg : BacktestConfig)
    (s : LedgerState) :
    execute_signal sig cfg (shift_ledger d s) =
      (execute_signal sig cfg s).map (shift_ledger d) := by
  unfold execute_signal
  cases sig.action with
  | hold => rfl
  | close => exact close_symbol_positions_shift d sig.symbol s
  | sell => exact close_symbol_positions_shift d sig.symbol s
  | buy =>
      dsimp only
      rw [get_available_balance_shift, get_current_price_shift]
      cases hcp : get_current_price sig.symbol s with
      | none => rfl
      | some cp =>
          dsimp only
          by_cases hpos : cp > 0
          · rw [if_pos hpos, if_pos hpos,
                show (shift_ledger d s).now = s.now + d from rfl]
            rw [show ({ strategy_id := sig.strategy_id, symbol := sig.symbol
                        market_type := sig.market_type, side := OrderSide.buy
                        order_type := OrderType.market
                        quantity := get_available_balance "USDT" s *
                          sig.position_size / cp
                        stop_loss := sig.stop_loss
                        take_profit := sig.take_profit
                        timestamp := s.now + d } : Order) =
                shift_order d
                  { strategy_id := sig.strategy_id, symbol := sig.symbol
                    market_type := sig.market_type, side := OrderSide.buy
                    order_type := OrderType.market
                    quantity := get_available_balance "USDT" s *
                      sig.position_size / cp
                    stop_loss := sig.stop_loss
                    take_profit := sig.take_profit
                    timestamp := s.now } from rfl]
            rw [place_order_shift]
            cases hres : place_order
                { strategy_id := sig.strategy_id, symbol := sig.symbol
                  market_type := sig.market_type, side := OrderSide.buy
                  order_type := OrderType.market
                  quantity := get_available_balance "USDT" s *
                    sig.position_size / cp
                  stop_loss := sig.stop_loss
                  take_profit := sig.take_profit
                  timestamp := s.now } s with
            | error e => rfl
            | ok p => rfl
          · rw [if_neg hpos, if_neg hpos]
            rfl

theorem mk_context_shift (d : ℕ) (cfg : BacktestConfig) (candle : Candle)
    (hist : List Candle) (inds : List (String × Option ℚ)) (bal : ℚ)
    (positions all_positions : List Position) :
    mk_context cfg candle hist inds bal (positions.map (shift_position d))
        (all_positions.map (shift_position d)) =
      shift_ctx d (mk_context cfg candle hist inds bal positions all_positions) := rfl

theorem run_step_shift {σ : Type} (strat : Strategy σ)
    (hstrat : time_insensitive strat) (cfg : BacktestConfig)
    (candles : List Candle) (d : ℕ) (es : EngineState σ) (ic : ℕ × Candle) :
    run_step strat cfg candles (shift_engine_state d es) ic =
      (run_step strat cfg candles es ic).map (shift_engine_state d) := by
  unfold run_step
  dsimp only
  rw [show (shift_engine_state d es).led = shift_ledger d es.led from rfl,
      show (shift_engine_state d es).strat_state = es.strat_state from rfl,
      set_current_price_shift, get_positions_shift, get_positions_shift,
      get_available_balance_shift, mk_context_shift, hstrat]
  by_cases hact : (strat.on_bar es.strat_state
      (mk_context cfg ic.2 (candles.take (ic.1 + 1))
        (calculate_indicators strat
          ((candles.take (ic.1 + 1)).map Candle.close))
        (get_available_balance "USDT"
          (set_current_price cfg.symbol ic.2.close es.led))
        (get_positions (some cfg.symbol)
          (set_current_price cfg.symbol ic.2.close es.led))
        (get_positions none
          (set_current_price cfg.symbol ic.2.close es.led)))).2.is_actionable = true
  · rw [if_pos hact, if_pos hact, execute_signal_shift]
    cases hres : execute_signal _ cfg
        (set_current_price cfg.symbol ic.2.close es.led) with
    | error e => rfl
    | ok led2 =>
        simp only [Except.map]
        rw [calculate_equity_shift]
        rfl
  · rw [if_neg hact, if_neg hact]
    simp only [Except.map]
    rw [calculate_equity_shift]
    rfl

theorem run_loop_shift {σ : Type} (strat : Strategy σ)
    (hstrat : time_insensitive strat) (cfg : BacktestConfig)
    (candles : List Candle) (d : ℕ) :
    ∀ (l : List (ℕ × Candle)) (es : EngineState σ),
      run_loop strat cfg candles l (shift_engine_state d es) =
        (run_loop strat cfg candles l es).map (shift_engine_state d)
  | [], es => rfl
  | ic :: rest, es => by
      simp only [run_loop]
      rw [run_step_shift strat hstrat cfg candles d es ic]
      cases hstep : run_step strat cfg candles es ic with
      | error e => rfl
      | ok es1 =>
          simp only [Except.map, Except.bind]
          exact run_loop_shift strat hstrat cfg candles d rest es1

theorem init_engine_state_shift {σ : Type} (strat : Strategy σ)
    (cfg : BacktestConfig) (t0 d : ℕ) :
    init_engine_state strat cfg (t0 + d) =
      shift_engine_state d (init_engine_state strat cfg t0) := rfl

theorem trades_filter_map_shift (d : ℕ) :
    ∀ (th : List Order),
      ((th.map (shift_order d)).filter Order.is_filled).map mk_trade_entry =
        ((th.filter Order.is_filled).map mk_trade_entry).map (shift_trade d)
  | [] => rfl
  | o :: rest => by
      have hfil : (shift_order d o).is_filled = o.is_filled := rfl
      by_cases h : o.is_filled = true <;>
        simp [List.filter, hfil, h, trades_filter_map_shift d rest] <;> rfl

theorem sell_filter_shift (d : ℕ) :
    ∀ (ts : List TradeEntry),
      (ts.map (shift_trade d)).filter (fun t => t.side == OrderSide.sell) =
        (ts.filter (fun t => t.side == OrderSide.sell)).map (shift_trade d)
  | [] => rfl
  | t :: rest => by
      have hside : (shift_trade d t).side = t.side := rfl
      by_cases h : (t.side == OrderSide.sell) = true <;>
        simp [List.filter, hside, h, sell_filter_shift d rest]

theorem run_shift {σ : Type} (strat : Strategy σ)
    (hstrat : time_insensitive strat) (cfg : BacktestConfig)
    (candles : List Candle) (t0 d : ℕ) :
    run strat cfg candles (t0 + d) =
      (run strat cfg candles t0).map (shift_result d) := by
  unfold run
  dsimp only
  rw [init_engine_state_shift, run_loop_shift strat hstrat cfg candles d]
  cases hloop : run_loop strat cfg candles (candles.enum.drop strat.required_candles)
      (init_engine_state strat cfg t0) with
  | error e => rfl
  | ok es =>
      simp only [Except.map, Except.bind]
      rw [show (shift_engine_state d es).led = shift_ledger d es.led from rfl,
          close_remaining_shift]
      cases hc : close_remaining es.led with
      | error e => rfl
      | ok led =>
          simp only [Except.map, Except.bind]
          rw [show (shift_ledger d led).trade_history =
              led.trade_history.map (shift_order d) from rfl,
            trades_filter_map_shift, sell_filter_shift, List.length_map,
            List.length_map, calculate_equity_shift]
          by_cases hz : cfg.initial_capital = 0
          · rw [if_pos hz, if_pos hz]
          · rw [if_neg hz, if_neg hz]
            simp only [List.length_map, Except.map, shift_result]
            rfl

theorem run_proj_shift {σ : Type} (strat : Strategy σ)
    (hstrat : time_insensitive strat) (cfg : BacktestConfig)
    (candles : List Candle) (t d : ℕ) :
    (run strat cfg candles (t + d)).map BacktestResult.equity_curve =
      (run strat cfg candles t).map BacktestResult.equity_curve ∧
    (run strat cfg candles (t + d)).map (fun r => r.trades.map strip_trade_time) =
      (run strat cfg candles t).map (fun r => r.trades.map strip_trade_time) ∧
    (run strat cfg candles (t + d)).map BacktestResult.signals =
      (run strat cfg candles t).map BacktestResult.signals := by
  rw [run_shift strat hstrat cfg candles t d]
  cases hres : run strat cfg candles t with
  | error e => exact ⟨rfl, rfl, rfl⟩
  | ok r =>
      refine ⟨rfl, ?_, rfl⟩
      simp only [Except.map, shift_result, List.map_map, Except.ok.injEq]
      congr 1

/-- C5 (amended).  For every strategy whose decision function does not read
the wall-clock timestamp fields of the positions in its snapshot, two runs of
the engine on the same candle series and configuration — differing only in
the wall-clock start instant — produce byte-identical equity curves and
signal histories, and trade logs that are identical except for the
wall-clock fill timestamp recorded in each entry. -/
theorem c5_run_deterministic_up_to_fill_timestamps {σ : Type}
    (strat : Strategy σ) (hstrat : time_insensitive strat)
    (cfg : BacktestConfig) (candles : List Candle) (t0 t0' : ℕ) :
    (run strat cfg candles t0).map BacktestResult.equity_curve =
      (run strat cfg candles t0').map BacktestResult.equity_curve ∧
    (run strat cfg candles t0).map (fun r => r.trades.map strip_trade_time) =
      (run strat cfg candles t0').map (fun r => r.trades.map strip_trade_time) ∧
    (run strat cfg candles t0).map BacktestResult.signals =
      (run strat cfg candles t0').map BacktestResult.signals := by
  rcases Nat.le_total t0 t0' with h | h
  · obtain ⟨d, rfl⟩ : ∃ d, t0' = t0 + d := ⟨t0' - t0, by omega⟩
    obtain ⟨h1, h2, h3⟩ := run_proj_shift strat hstrat cfg candles t0 d
    exact ⟨h1.symm, h2.symm, h3.symm⟩
  · obtain ⟨d, rfl⟩ : ∃ d, t0 = t0' + d := ⟨t0 - t0', by omega⟩
    exact run_proj_shift strat hstrat cfg candles t0' d

/-- C5 counterexample: the same series and configuration replayed at two
different wall-clock instants give different trade logs — each entry's
timestamp field records `datetime.utcnow()` at fill time — so the logs are
not byte-identical as claimed. -/
theorem c5_trade_log_depends_on_wall_clock :
    (run c5_buy c5_cfg [c5_candle] 0).map BacktestResult.trades ≠
      (run c5_buy c5_cfg [c5_candle] 5).map BacktestResult.trades := by
  norm_num [run, run_loop, run_step, init_engine_state, init_adapter, connect,
    c5_buy, c5_cfg, c5_candle, set_current_price, calculate_indicators,
    get_positions, get_available_balance, mk_context, Signal.is_actionable,
    execute_signal, get_current_price, place_order, fill_market_order,
    debit_buy, store_fill, alist_insert, alist_lookup, alist_erase,
    Order.mark_submitted, Order.mark_filled, update_position,
    calculate_equity, get_account_balance, sum_unrealized, close_remaining,
    close_position, close_positions_list, close_symbol_positions,
    close_position_internal, Position.unrealized_pnl, Position.update_price,
    mk_trade_entry, Order.is_filled, fill_price_for, limit_hold,
    insufficient_balance, insufficient_balance_msg, Except.map, Except.bind,
    List.enum, List.enumFrom]
  simp +decide

/-- C5 witness for the amended theorem: a time-insensitive strategy (constant
HOLD, which ignores its snapshot) run at wall-clock instants 0 and 5. -/
theorem c5_run_deterministic_up_to_fill_timestamps_witness :
    time_insensitive c5_hold ∧
    ((run c5_hold c5_cfg [c5_candle] 0).map BacktestResult.equity_curve =
      (run c5_hold c5_cfg [c5_candle] 5).map BacktestResult.equity_curve ∧
    (run c5_hold c5_cfg [c5_candle] 0).map (fun r => r.trades.map strip_trade_time) =
      (run c5_hold c5_cfg [c5_candle] 5).map (fun r => r.trades.map strip_trade_time) ∧
    (run c5_hold c5_cfg [c5_candle] 0).map BacktestResult.signals =
      (run c5_hold c5_cfg [c5_candle] 5).map BacktestResult.signals) :=
  ⟨fun _ _ _ => rfl,
   c5_run_deterministic_up_to_fill_timestamps c5_hold (fun _ _ _ => rfl)
     c5_cfg [c5_candle] 0 5⟩

end MMATS
